import Mathlib

/-!
Shallow embedding of `moodle_dl/notifications/ntfy/ntfy_formatter.py`.

Python strings are modelled as Lean `String` (a list of unicode
characters); Python exceptions are modelled with `Except`; Python's
ordered `dict` (insertion order) is modelled as an association list.
`str.rstrip()` is modelled over the ASCII whitespace characters, which
covers every string the formatter itself produces.
-/

namespace NtfyFormatter

/-- The fields of `moodle_dl.types.File` read by the formatter. -/
structure File where
  content_filename : String
  content_filepath : String
  content_fileurl : Option String
  content_type : String
  module_modname : String
  modified : Bool
  deleted : Bool
  moved : Bool
deriving Repr, DecidableEq

/-- The fields of `moodle_dl.types.Course` read by the formatter. -/
structure Course where
  fullname : String
  overwrite_name_with : Option String
  files : List File
deriving Repr, DecidableEq

/-- The `NtfyMessage` dataclass: `title`, `text`, `source_url = None`. -/
structure NtfyMessage where
  title : String
  text : String
  source_url : Option String
deriving Repr, DecidableEq

/-- Errors raised by the Python code: `ValueError` from unpacking the
calendar filename split, `ValueError` from `datetime.strptime`, and the
`AssertionError` of the orchestrator's final `else` branch. -/
inductive Err where
  | parseError
  | formatError
  | contractViolation
deriving Repr, DecidableEq

/-- Python's `x or y` on an optional string: `None` and `""` are falsy. -/
def pyOrName (x : Option String) (y : String) : String :=
  match x with
  | none => y
  | some s => if s = "" then y else s

/-- The Unicode whitespace predicate of CPython (`Py_UNICODE_ISSPACE`),
the exact character set stripped by `str.rstrip()`: 09-0D, 1C-1F, 20,
85, A0, 1680, 2000-200A, 2028, 2029, 202F, 205F, 3000. -/
def isPySpace (c : Char) : Bool :=
  (9 ≤ c.toNat && c.toNat ≤ 13) || (28 ≤ c.toNat && c.toNat ≤ 32) ||
  c.toNat = 0x85 || c.toNat = 0xA0 || c.toNat = 0x1680 ||
  (0x2000 ≤ c.toNat && c.toNat ≤ 0x200A) || c.toNat = 0x2028 ||
  c.toNat = 0x2029 || c.toNat = 0x202F || c.toNat = 0x205F ||
  c.toNat = 0x3000

/-- `rstrip` on a character list: drop the trailing whitespace run. -/
def rstripL (l : List Char) : List Char :=
  (l.reverse.dropWhile isPySpace).reverse

/-- `str.rstrip()`. -/
def rstripS (s : String) : String :=
  String.mk (rstripL s.data)

/-- Split a character list at the first `' '`: returns the part before
it and, when a space exists, the remainder after it. -/
def breakAtSpace : List Char → List Char × Option (List Char)
  | [] => ([], none)
  | c :: cs =>
    if c = ' ' then ([], some cs)
    else
      let r := breakAtSpace cs
      (c :: r.1, r.2)

/-- Python `s.split(" ", 2)`: split on the first two single spaces. -/
def pySplitSpace2 (s : String) : List String :=
  match breakAtSpace s.data with
  | (t1, none) => [String.mk t1]
  | (t1, some r1) =>
    match breakAtSpace r1 with
    | (t2, none) => [String.mk t1, String.mk t2]
    | (t2, some r2) => [String.mk t1, String.mk t2, String.mk r2]

/-- `remove_until_first_space`: `s.split(" ", 1)[1] if " " in s else s`. -/
def remove_until_first_space (s : String) : String :=
  match breakAtSpace s.data with
  | (_, some rest) => String.mk rest
  | (_, none) => s

/-- Concatenation of a list of strings, in order (the `text += line`
loop of the combined-message builder). -/
def concatAll : List String → String
  | [] => ""
  | s :: rest => s ++ concatAll rest

/- ### DateTimeFormatter (`iso_to_time_dmy`) -/

/-- Decimal digit test, `[0-9]`. -/
def isDigitChar (c : Char) : Bool :=
  48 ≤ c.toNat && c.toNat ≤ 57

/-- Numeric value of a digit character. -/
def digitVal (c : Char) : Nat :=
  c.toNat - 48

/-- Greedily consume up to `max` leading digits; returns how many were
consumed, the accumulated value and the rest of the input. -/
def takeDigitsAux : Nat → List Char → Nat → Nat → Nat × Nat × List Char
  | 0, cs, acc, cnt => (cnt, acc, cs)
  | _ + 1, [], acc, cnt => (cnt, acc, [])
  | n + 1, c :: cs, acc, cnt =>
    if isDigitChar c then takeDigitsAux n cs (acc * 10 + digitVal c) (cnt + 1)
    else (cnt, acc, c :: cs)

/-- Consume `1..maxLen` leading digits, as `strptime`'s two-digit
numeric fields (`\d\x7b1,2\x7d` in CPython's regex) do. -/
def parseDigits (maxLen : Nat) (cs : List Char) : Option (Nat × List Char) :=
  match takeDigitsAux maxLen cs 0 0 with
  | (0, _, _) => none
  | (_ + 1, v, rest) => some (v, rest)

/-- Consume exactly four leading digits, as `strptime`'s `%Y` field
(`\d\x7b4\x7d` in CPython's regex) does. -/
def parseDigits4Exact (cs : List Char) : Option (Nat × List Char) :=
  let r := takeDigitsAux 4 cs 0 0
  if r.1 = 4 then some (r.2.1, r.2.2) else none

/-- Consume one expected literal character. -/
def expectChar (c : Char) : List Char → Option (List Char)
  | [] => none
  | d :: cs => if d = c then some cs else none

/-- Gregorian leap-year rule used by `datetime`. -/
def isLeapYear (y : Nat) : Bool :=
  y % 4 = 0 && (y % 100 ≠ 0 || y % 400 = 0)

/-- Number of days of month `m` in year `y`. -/
def daysInMonth (y m : Nat) : Nat :=
  if m = 2 then (if isLeapYear y then 29 else 28)
  else if m = 4 ∨ m = 6 ∨ m = 9 ∨ m = 11 then 30
  else 31

/-- `datetime.strptime(s, "%Y.%m.%d %H:%M")`: parse and range-check the
five numeric fields (`%Y` exactly four digits, the rest one or two);
`none` models the `ValueError`. -/
def strptime_Ymd_HM (s : String) : Option (Nat × Nat × Nat × Nat × Nat) := do
  let (y, r1) ← parseDigits4Exact s.data
  let r2 ← expectChar '.' r1
  let (mo, r3) ← parseDigits 2 r2
  let r4 ← expectChar '.' r3
  let (dy, r5) ← parseDigits 2 r4
  let r6 ← expectChar ' ' r5
  let (hh, r7) ← parseDigits 2 r6
  let r8 ← expectChar ':' r7
  let (mi, r9) ← parseDigits 2 r8
  if r9 = [] ∧ 1 ≤ y ∧ y ≤ 9999 ∧ 1 ≤ mo ∧ mo ≤ 12 ∧ 1 ≤ dy ∧
      dy ≤ daysInMonth y mo ∧ hh ≤ 23 ∧ mi ≤ 59 then
    some (y, mo, dy, hh, mi)
  else none

/-- The digit character for `n < 10`. -/
def digitChar (n : Nat) : Char :=
  Char.ofNat (48 + n)

/-- Two-digit zero-padded rendering, as `strftime`'s `%I %M %d %m %y`. -/
def pad2 (n : Nat) : String :=
  String.mk [digitChar (n / 10), digitChar (n % 10)]

/-- `%I`: hour on the 12-hour clock. -/
def hour12 (h : Nat) : Nat :=
  if h % 12 = 0 then 12 else h % 12

/-- `%p`: `AM` for hours 0-11, `PM` for hours 12-23. -/
def meridiem (h : Nat) : String :=
  if h < 12 then "AM" else "PM"

/-- `strftime("%I:%M %p %d.%m.%y")` on a validated datetime. -/
def strftime_ImP_dmy (y mo dy hh mi : Nat) : String :=
  pad2 (hour12 hh) ++ ":" ++ pad2 mi ++ " " ++ meridiem hh ++ " " ++
    pad2 dy ++ "." ++ pad2 mo ++ "." ++ pad2 (y % 100)

/-- `time_str.replace("_", ":")` (single-character replacement). -/
def underscoreToColon (s : String) : String :=
  String.mk (s.data.map fun c => if c = '_' then ':' else c)

/-- `iso_to_time_dmy`: reformat a `YYYY.MM.DD` / `HH_MM` token pair to
`%I:%M %p %d.%m.%y`; `none` models the propagated `ValueError`. -/
def iso_to_time_dmy (date_str time_str : String) : Option String :=
  let t := underscoreToColon time_str
  (strptime_Ymd_HM (date_str ++ " " ++ t)).map
    fun x => strftime_ImP_dmy x.1 x.2.1 x.2.2.1 x.2.2.2.1 x.2.2.2.2

/- ### Message renderers -/

/-- `_get_course_name_str`. -/
def get_course_name_str (course_name : String) : String :=
  "📘 " ++ course_name

/-- `_get_change_type`: priority `modified > deleted > moved > new`. -/
def get_change_type (file : File) : String :=
  if file.modified then "modified"
  else if file.deleted then "deleted"
  else if file.moved then "moved"
  else "new"

/-- `_get_status_str`: the change type when it is not `"new"`, else `""`. -/
def get_status_str (file : File) : String :=
  let status := get_change_type file
  if status ≠ "new" then status else ""

/-- `_get_content_type`: the fixed display-name mapping with fallback. -/
def get_content_type (file : File) : String :=
  if file.content_type = "assign_file" then "Assigment File"
  else if file.content_type = "submission_file" then "Submission File"
  else file.content_type

/-- The optional `emoji + " "` title piece: Python `if emoji:` is true
for a non-`None`, non-empty string. -/
def emojiPiece (emoji : Option String) : String :=
  match emoji with
  | none => ""
  | some e => if e = "" then "" else e ++ " "

/-- `make_generic_message`. -/
def make_generic_message (file : File) (course_name : String)
    (emoji : Option String) : NtfyMessage :=
  { title := emojiPiece emoji ++ file.content_filename
    text := get_course_name_str course_name
    source_url := file.content_fileurl }

/-- One bullet line of the combined-message loop body, including its
trailing newline. -/
def combinedBulletLine (add_content_type : Bool) (file : File) : String :=
  let status := get_status_str file
  let type_str := get_content_type file
  "● " ++ file.content_filename ++
    (if add_content_type then " (" ++ type_str ++ ")" else "") ++
    (if status ≠ "" then " (" ++ status ++ ")" else "") ++ "\n"

/-- `make_generic_combined_message`. -/
def make_generic_combined_message (files : List File) (course_name : String)
    (keyword : String) (emoji : Option String)
    (add_content_type : Bool) : NtfyMessage :=
  { title := emojiPiece emoji ++ toString files.length ++ " " ++ keyword ++ " updates"
    text := rstripS (get_course_name_str course_name ++ "\n" ++
      concatAll (files.map (combinedBulletLine add_content_type)))
    source_url := none }

/-- `make_resource_combined_message`. -/
def make_resource_combined_message (files : List File)
    (course_name : String) : NtfyMessage :=
  make_generic_combined_message files course_name "file" (some "📚") false

/-- `make_calendar_message`: split the filename on the first two spaces,
reformat the date/time pair, and build the title. The two `ValueError`
sites are the failed 3-way unpacking (`parseError`) and the failed
`strptime` (`formatError`). -/
def make_calendar_message (file : File) (course_name : String) :
    Except Err NtfyMessage :=
  match pySplitSpace2 file.content_filename with
  | [iso_date, iso_time, event_name] =>
    match iso_to_time_dmy iso_date iso_time with
    | some time_date_str =>
      .ok { title := "⏰ " ++ event_name ++ " @ " ++ time_date_str
            text := get_course_name_str course_name
            source_url := file.content_fileurl }
    | none => .error .formatError
  | _ => .error .parseError

/-- `make_quiz_message`. -/
def make_quiz_message (file : File) (course_name : String) : NtfyMessage :=
  make_generic_message file course_name (some "💻")

/-- `make_assign_combined_message`. -/
def make_assign_combined_message (files : List File)
    (course_name : String) : NtfyMessage :=
  make_generic_combined_message files course_name "assignment file" (some "📝") true

/-- `make_forum_message`. -/
def make_forum_message (file : File) (course_name : String) : NtfyMessage :=
  { title := "✉️ " ++ remove_until_first_space file.content_filepath
    text := get_course_name_str course_name
    source_url := file.content_fileurl }

/- ### FileAggregatorByMod -/

/-- The aggregator's `self.map`: a string-keyed ordered dictionary of
file buckets, modelled as an association list in insertion order. -/
abbrev AggMap := List (String × List File)

/-- Association-list lookup (Python `key in dict` / `dict[key]`). -/
def lookupKey : AggMap → String → Option (List File)
  | [], _ => none
  | (k, v) :: rest, key => if k = key then some v else lookupKey rest key

/-- Python `key in self.map`. -/
def hasKey (m : AggMap) (key : String) : Bool :=
  (lookupKey m key).isSome

/-- `self.map[key].append(file)` on an existing key. -/
def appendAt : AggMap → String → File → AggMap
  | [], _, _ => []
  | (k, v) :: rest, key, f =>
    if k = key then (k, v ++ [f]) :: rest else (k, v) :: appendAt rest key f

/-- The default `mod_categories` argument of `FileAggregatorByMod`. -/
def default_mod_categories : List String :=
  ["assign", "calendar", "folder", "forum", "resource", "quiz"]

/-- `FileAggregatorByMod.__init__`: `{key: [] for key in mod_categories
+ ["misc"]}` (dict comprehension keeps first-occurrence key order). -/
def aggInit (mod_categories : List String) : AggMap :=
  (mod_categories ++ ["misc"]).foldl
    (fun m k => if hasKey m k then m else m ++ [(k, [])]) []

/-- `FileAggregatorByMod.add`. -/
def aggAdd (m : AggMap) (file : File) : AggMap :=
  if hasKey m file.module_modname then appendAt m file.module_modname file
  else appendAt m "misc" file

/- ### DiffMessageBuilder (`create_full_moodle_diff_messages`) -/

/-- The list comprehension
`[make_calendar_message(file, course_name) for file in files]`:
build messages in order, propagating the first error. -/
def mapCalendar (files : List File) (course_name : String) :
    Except Err (List NtfyMessage) :=
  match files with
  | [] => .ok []
  | f :: rest => do
    let m ← make_calendar_message f course_name
    let ms ← mapCalendar rest course_name
    pure (m :: ms)

/-- One bucket's dispatch in the `for mod, files in aggregator.map.items()`
loop: the `if/elif` chain, with the final `else` raising `AssertionError`. -/
def renderBucket (mod : String) (files : List File) (course_name : String) :
    Except Err (List NtfyMessage) :=
  if mod = "assign" then .ok [make_assign_combined_message files course_name]
  else if mod = "calendar" then
    mapCalendar files course_name
  else if mod = "forum" then
    .ok (files.map (fun f => make_forum_message f course_name))
  else if mod = "folder" ∨ mod = "resource" then
    .ok [make_resource_combined_message files course_name]
  else if mod = "quiz" then
    .ok (files.map (fun f => make_quiz_message f course_name))
  else if mod = "misc" then
    .ok [make_generic_combined_message files course_name "misc" (some "🗂️") false]
  else .error .contractViolation

/-- The bucket loop of `create_full_moodle_diff_messages`: skip empty
buckets, render the rest in dictionary order, concatenating results. -/
def processBuckets (entries : AggMap) (course_name : String) :
    Except Err (List NtfyMessage) :=
  match entries with
  | [] => .ok []
  | (mod, files) :: rest =>
    if files.isEmpty then processBuckets rest course_name
    else do
      let ms ← renderBucket mod files course_name
      let msRest ← processBuckets rest course_name
      pure (ms ++ msRest)

/-- The per-course body of `create_full_moodle_diff_messages`: resolve
the display name, aggregate the files, render each non-empty bucket. -/
def processCourse (course : Course) : Except Err (List NtfyMessage) :=
  processBuckets
    (course.files.foldl aggAdd (aggInit default_mod_categories))
    (pyOrName course.overwrite_name_with course.fullname)

/-- `create_full_moodle_diff_messages`: concatenate every course's
messages in input order. -/
def create_full_moodle_diff_messages (changes : List Course) :
    Except Err (List NtfyMessage) :=
  match changes with
  | [] => .ok []
  | course :: rest => do
    let ms ← processCourse course
    let msRest ← create_full_moodle_diff_messages rest
    pure (ms ++ msRest)

/- ### Spec-side ordered rendering (for the message-ordering claim) -/

/-- Spec-side: the fixed category order
`assign, calendar, folder, forum, resource, quiz, misc`. -/
def full_category_order : List String :=
  ["assign", "calendar", "folder", "forum", "resource", "quiz", "misc"]

/-- Spec-side: the CategoryClassifier — an event's category is its
`module_modname` when recognized, else the catch-all `misc`. -/
def specClassify (modname : String) : String :=
  if modname ∈ default_mod_categories then modname else "misc"

/-- Spec-side: render the buckets of one course by walking the fixed
category order, taking each category's bucket as the input-order
filter of the course's files. -/
def specBuckets (cats : List String) (files : List File) (cn : String) :
    Except Err (List NtfyMessage) :=
  match cats with
  | [] => .ok []
  | c :: rest =>
    let bucket := files.filter (fun f => specClassify f.module_modname == c)
    if bucket.isEmpty then specBuckets rest files cn
    else do
      let ms ← renderBucket c bucket cn
      let msRest ← specBuckets rest files cn
      pure (ms ++ msRest)

/-- Spec-side: the builder as the spec words it — courses in input
order, each course's non-empty buckets in the fixed category order. -/
def spec_ordered_messages : List Course → Except Err (List NtfyMessage)
  | [] => .ok []
  | course :: rest => do
    let ms ← specBuckets full_category_order course.files
      (pyOrName course.overwrite_name_with course.fullname)
    let msRest ← spec_ordered_messages rest
    pure (ms ++ msRest)

/- ### Spec-side constructions for the combined-body claim -/

/-- Spec-side: lines joined by newlines, with no trailing newline. -/
def interNl : List String → String
  | [] => ""
  | [s] => s
  | s :: t :: rest => s ++ "\n" ++ interNl (t :: rest)

/-- Spec-side: the status annotation of a bullet line — empty when the
derived status is `new`, else ` ({status})`. -/
def statusAnnot (f : File) : String :=
  if get_status_str f = "" then "" else " (" ++ get_status_str f ++ ")"

/- ### Spec-side constructions for the conservation claim -/

/-- Spec-side: the number of bullet lines of a message body. -/
def bulletCount (s : String) : Nat :=
  s.data.count '●'

/-- Spec-side: the number of file events a message refers to — its
bullet-line count for a combined message, one for a bullet-free
per-event message. -/
def refCount (m : NtfyMessage) : Nat :=
  max (bulletCount m.text) 1

/- ### Spec-side constructions for the DateTimeFormatter claim -/

/-- Four-digit zero-padded rendering (for building `YYYY` tokens). -/
def pad4 (n : Nat) : String :=
  String.mk [digitChar (n / 1000), digitChar (n / 100 % 10),
    digitChar (n / 10 % 10), digitChar (n % 10)]

/-- Spec-side: the canonical zero-padded date token `YYYY.MM.DD`. -/
def dateToken (y m d : Nat) : String :=
  pad4 y ++ "." ++ pad2 m ++ "." ++ pad2 d

/-- Spec-side: the canonical zero-padded time token `HH_MM`. -/
def timeToken (h mi : Nat) : String :=
  pad2 h ++ "_" ++ pad2 mi

/-- Spec-side: the regular expression
`^\d\x7b2\x7d:\d\x7b2\x7d (AM|PM) \d\x7b2\x7d\.\d\x7b2\x7d\.\d\x7b2\x7d$`
as a decidable check on the character list. -/
def matchesOutPattern (s : String) : Bool :=
  match s.data with
  | [a1, a2, c1, b1, b2, s1, p1, p2, s2, d1, d2, o1, n1, n2, o2, y1, y2] =>
    isDigitChar a1 && isDigitChar a2 && c1 == ':' &&
    isDigitChar b1 && isDigitChar b2 && s1 == ' ' &&
    (p1 == 'A' || p1 == 'P') && p2 == 'M' && s2 == ' ' &&
    isDigitChar d1 && isDigitChar d2 && o1 == '.' &&
    isDigitChar n1 && isDigitChar n2 && o2 == '.' &&
    isDigitChar y1 && isDigitChar y2
  | _ => false

/- ### Concrete inputs used by claim theorems -/

/-- The `resource` file `Syllabus.pdf`, all status flags false. -/
def syllabusFile : File :=
  ⟨"Syllabus.pdf", "", none, "", "resource", false, false, false⟩

/-- The `resource` file `Notes.pdf`, all status flags false. -/
def notesFile : File :=
  ⟨"Notes.pdf", "", none, "", "resource", false, false, false⟩

/-- The `assign` file `HW1.pdf`, modified, content type `assign_file`. -/
def hw1File : File :=
  ⟨"HW1.pdf", "", none, "assign_file", "assign", true, false, false⟩

/-- The course `Algebra I` of the end-to-end scenario. -/
def algebraCourse : Course :=
  ⟨"Algebra I", none, [syllabusFile, notesFile, hw1File]⟩

/- ### Supporting lemmas: digits, parsing and formatting -/

theorem mk_append (a b : List Char) :
    String.mk a ++ String.mk b = String.mk (a ++ b) := rfl

theorem digitChar_isDigit (k : Nat) (h : k ≤ 9) :
    isDigitChar (digitChar k) = true := by
  interval_cases k <;> decide

theorem digitVal_digitChar (k : Nat) (h : k ≤ 9) :
    digitVal (digitChar k) = k := by
  interval_cases k <;> decide

theorem digitChar_ne_underscore (k : Nat) (h : k ≤ 9) :
    (digitChar k = '_') = False := by
  interval_cases k <;> decide

theorem parseDigits2 (a b : Nat) (ha : a ≤ 9) (hb : b ≤ 9)
    (rest : List Char) :
    parseDigits 2 (digitChar a :: digitChar b :: rest) =
      some (a * 10 + b, rest) := by
  simp [parseDigits, takeDigitsAux, digitChar_isDigit a ha,
    digitChar_isDigit b hb, digitVal_digitChar a ha, digitVal_digitChar b hb]

theorem parseDigits4Exact_digits (a b c d : Nat) (ha : a ≤ 9) (hb : b ≤ 9)
    (hc : c ≤ 9) (hd : d ≤ 9) (rest : List Char) :
    parseDigits4Exact (digitChar a :: digitChar b :: digitChar c ::
        digitChar d :: rest) =
      some (((a * 10 + b) * 10 + c) * 10 + d, rest) := by
  simp [parseDigits4Exact, takeDigitsAux, digitChar_isDigit a ha,
    digitChar_isDigit b hb, digitChar_isDigit c hc, digitChar_isDigit d hd,
    digitVal_digitChar a ha, digitVal_digitChar b hb,
    digitVal_digitChar c hc, digitVal_digitChar d hd]

theorem underscoreToColon_timeToken (h mi : Nat) (hh : h ≤ 99)
    (hmi : mi ≤ 99) :
    underscoreToColon (timeToken h mi) =
      String.mk [digitChar (h / 10), digitChar (h % 10), ':',
        digitChar (mi / 10), digitChar (mi % 10)] := by
  have h1 : h / 10 ≤ 9 := by omega
  have h2 : h % 10 ≤ 9 := by omega
  have h3 : mi / 10 ≤ 9 := by omega
  have h4 : mi % 10 ≤ 9 := by omega
  simp [underscoreToColon, timeToken, pad2, mk_append,
    digitChar_ne_underscore _ h1, digitChar_ne_underscore _ h2,
    digitChar_ne_underscore _ h3, digitChar_ne_underscore _ h4]

theorem daysInMonth_le (y m : Nat) : daysInMonth y m ≤ 31 := by
  unfold daysInMonth
  split_ifs <;> omega

theorem strptime_token (y m d h mi : Nat) (h1 : 1 ≤ y) (h2 : y ≤ 9999)
    (h3 : 1 ≤ m) (h4 : m ≤ 12) (h5 : 1 ≤ d) (h6 : d ≤ daysInMonth y m)
    (h7 : h ≤ 23) (h8 : mi ≤ 59) :
    strptime_Ymd_HM (dateToken y m d ++ " " ++
        underscoreToColon (timeToken h mi)) = some (y, m, d, h, mi) := by
  have hd31 : d ≤ 31 := le_trans h6 (daysInMonth_le y m)
  rw [underscoreToColon_timeToken h mi (by omega) (by omega)]
  have e1 : y / 1000 ≤ 9 := by omega
  have e2 : y / 100 % 10 ≤ 9 := by omega
  have e3 : y / 10 % 10 ≤ 9 := by omega
  have e4 : y % 10 ≤ 9 := by omega
  have e5 : m / 10 ≤ 9 := by omega
  have e6 : m % 10 ≤ 9 := by omega
  have e7 : d / 10 ≤ 9 := by omega
  have e8 : d % 10 ≤ 9 := by omega
  have e9 : h / 10 ≤ 9 := by omega
  have e10 : h % 10 ≤ 9 := by omega
  have e11 : mi / 10 ≤ 9 := by omega
  have e12 : mi % 10 ≤ 9 := by omega
  have ey : ((y / 1000 * 10 + y / 100 % 10) * 10 + y / 10 % 10) * 10 +
      y % 10 = y := by omega
  have em : m / 10 * 10 + m % 10 = m := by omega
  have ed : d / 10 * 10 + d % 10 = d := by omega
  have eh : h / 10 * 10 + h % 10 = h := by omega
  have emi : mi / 10 * 10 + mi % 10 = mi := by omega
  have hdata : (dateToken y m d ++ " " ++
      String.mk [digitChar (h / 10), digitChar (h % 10), ':',
        digitChar (mi / 10), digitChar (mi % 10)]).data =
      digitChar (y / 1000) :: digitChar (y / 100 % 10) ::
      digitChar (y / 10 % 10) :: digitChar (y % 10) :: '.' ::
      digitChar (m / 10) :: digitChar (m % 10) :: '.' ::
      digitChar (d / 10) :: digitChar (d % 10) :: ' ' ::
      digitChar (h / 10) :: digitChar (h % 10) :: ':' ::
      digitChar (mi / 10) :: [digitChar (mi % 10)] := by
    simp [dateToken, pad4, pad2, mk_append]
  unfold strptime_Ymd_HM
  rw [hdata, parseDigits4Exact_digits _ _ _ _ e1 e2 e3 e4]
  simp [Option.bind_eq_bind, expectChar, parseDigits2 _ _ e5 e6,
    parseDigits2 _ _ e7 e8, parseDigits2 _ _ e9 e10,
    parseDigits2 _ _ e11 e12, ey, em, ed, eh, emi,
    h1, h2, h3, h4, h5, h6, h7, h8]

theorem matchesOutPattern_strftime (y m d h mi : Nat) (h4 : m ≤ 12)
    (h6 : d ≤ 31) (h7 : h ≤ 23) (h8 : mi ≤ 59) :
    matchesOutPattern (strftime_ImP_dmy y m d h mi) = true := by
  have hh12 : hour12 h ≤ 12 := by
    unfold hour12
    split
    · omega
    · omega
  have g1 : hour12 h / 10 ≤ 9 := by omega
  have g2 : hour12 h % 10 ≤ 9 := by omega
  have g3 : mi / 10 ≤ 9 := by omega
  have g4 : mi % 10 ≤ 9 := by omega
  have g5 : d / 10 ≤ 9 := by omega
  have g6 : d % 10 ≤ 9 := by omega
  have g7 : m / 10 ≤ 9 := by omega
  have g8 : m % 10 ≤ 9 := by omega
  have g9 : y % 100 / 10 ≤ 9 := by omega
  have g10 : y % 100 % 10 ≤ 9 := by omega
  by_cases hlt : h < 12 <;>
    simp [strftime_ImP_dmy, meridiem, hlt, matchesOutPattern, pad2,
      mk_append, digitChar_isDigit _ g1, digitChar_isDigit _ g2,
      digitChar_isDigit _ g3, digitChar_isDigit _ g4,
      digitChar_isDigit _ g5, digitChar_isDigit _ g6,
      digitChar_isDigit _ g7, digitChar_isDigit _ g8,
      digitChar_isDigit _ g9, digitChar_isDigit _ g10]

/- ### Supporting lemmas: the aggregator as an ordered partition -/

theorem aggAdd_eq (f : File) (b1 b2 b3 b4 b5 b6 b7 : List File) :
    aggAdd [("assign", b1), ("calendar", b2), ("folder", b3), ("forum", b4),
      ("resource", b5), ("quiz", b6), ("misc", b7)] f =
    [("assign", if specClassify f.module_modname = "assign" then b1 ++ [f] else b1),
     ("calendar", if specClassify f.module_modname = "calendar" then b2 ++ [f] else b2),
     ("folder", if specClassify f.module_modname = "folder" then b3 ++ [f] else b3),
     ("forum", if specClassify f.module_modname = "forum" then b4 ++ [f] else b4),
     ("resource", if specClassify f.module_modname = "resource" then b5 ++ [f] else b5),
     ("quiz", if specClassify f.module_modname = "quiz" then b6 ++ [f] else b6),
     ("misc", if specClassify f.module_modname = "misc" then b7 ++ [f] else b7)] := by
  by_cases h1 : f.module_modname = "assign"
  · simp [aggAdd, hasKey, lookupKey, appendAt, specClassify,
      default_mod_categories, h1]
  by_cases h2 : f.module_modname = "calendar"
  · simp [aggAdd, hasKey, lookupKey, appendAt, specClassify,
      default_mod_categories, h2]
  by_cases h3 : f.module_modname = "folder"
  · simp [aggAdd, hasKey, lookupKey, appendAt, specClassify,
      default_mod_categories, h3]
  by_cases h4 : f.module_modname = "forum"
  · simp [aggAdd, hasKey, lookupKey, appendAt, specClassify,
      default_mod_categories, h4]
  by_cases h5 : f.module_modname = "resource"
  · simp [aggAdd, hasKey, lookupKey, appendAt, specClassify,
      default_mod_categories, h5]
  by_cases h6 : f.module_modname = "quiz"
  · simp [aggAdd, hasKey, lookupKey, appendAt, specClassify,
      default_mod_categories, h6]
  by_cases h7 : f.module_modname = "misc"
  · simp [aggAdd, hasKey, lookupKey, appendAt, specClassify,
      default_mod_categories, h7]
  · simp [aggAdd, hasKey, lookupKey, appendAt, specClassify,
      default_mod_categories, h1, h2, h3, h4, h5, h6, h7,
      Ne.symm h1, Ne.symm h2, Ne.symm h3, Ne.symm h4, Ne.symm h5,
      Ne.symm h6, Ne.symm h7]

theorem bucket_step (b : List File) (f : File) (fs : List File) (key : String) :
    (if specClassify f.module_modname = key then b ++ [f] else b) ++
      fs.filter (fun g => specClassify g.module_modname == key) =
    b ++ (f :: fs).filter (fun g => specClassify g.module_modname == key) := by
  by_cases h : specClassify f.module_modname = key <;>
    simp [List.filter_cons, h]

theorem foldl_aggAdd (files : List File) (b1 b2 b3 b4 b5 b6 b7 : List File) :
    files.foldl aggAdd [("assign", b1), ("calendar", b2), ("folder", b3),
      ("forum", b4), ("resource", b5), ("quiz", b6), ("misc", b7)] =
    [("assign", b1 ++ files.filter (fun f => specClassify f.module_modname == "assign")),
     ("calendar", b2 ++ files.filter (fun f => specClassify f.module_modname == "calendar")),
     ("folder", b3 ++ files.filter (fun f => specClassify f.module_modname == "folder")),
     ("forum", b4 ++ files.filter (fun f => specClassify f.module_modname == "forum")),
     ("resource", b5 ++ files.filter (fun f => specClassify f.module_modname == "resource")),
     ("quiz", b6 ++ files.filter (fun f => specClassify f.module_modname == "quiz")),
     ("misc", b7 ++ files.filter (fun f => specClassify f.module_modname == "misc"))] := by
  induction files generalizing b1 b2 b3 b4 b5 b6 b7 with
  | nil => simp
  | cons f fs ih =>
    rw [List.foldl_cons, aggAdd_eq, ih]
    simp only [bucket_step]

theorem agg_result (files : List File) :
    files.foldl aggAdd (aggInit default_mod_categories) =
    full_category_order.map
      (fun c => (c, files.filter (fun f => specClassify f.module_modname == c))) := by
  have hinit : aggInit default_mod_categories =
      [("assign", []), ("calendar", []), ("folder", []), ("forum", []),
       ("resource", []), ("quiz", []), ("misc", [])] := rfl
  rw [hinit, foldl_aggAdd]
  simp [full_category_order]

theorem processBuckets_filters (cats : List String) (files : List File)
    (cn : String) :
    processBuckets (cats.map
      (fun c => (c, files.filter (fun f => specClassify f.module_modname == c)))) cn =
    specBuckets cats files cn := by
  induction cats with
  | nil => rfl
  | cons c rest ih =>
    simp only [List.map_cons, processBuckets, specBuckets]
    rw [ih]

/- ### Supporting lemmas: rstrip on newline-joined bullet lines -/

theorem string_eq_of_data (a b : String) (h : a.data = b.data) : a = b := by
  cases a
  cases b
  cases h
  rfl

theorem rstripL_no_ws_tail (xs : List Char) (c : Char)
    (hc : isPySpace c = false) :
    rstripL (xs ++ [c] ++ ['\n']) = xs ++ [c] := by
  have hn : isPySpace '\n' = true := by decide
  simp [rstripL, List.reverse_append, List.dropWhile_cons, hn, hc]

theorem interNl_cons (s : String) (lines : List String) (h : lines ≠ []) :
    interNl (s :: lines) = s ++ "\n" ++ interNl lines := by
  cases lines with
  | nil => cases h rfl
  | cons t rest => rfl

theorem rstrip_concatAll (lines : List String) (p : String)
    (hne : lines ≠ [])
    (hl : ∀ line ∈ lines, ∃ pre c, line.data = pre ++ [c] ∧
      isPySpace c = false) :
    rstripS (p ++ concatAll (lines.map (fun l => l ++ "\n"))) =
      p ++ interNl lines := by
  induction lines generalizing p with
  | nil => cases hne rfl
  | cons l rest ih =>
    cases rest with
    | nil =>
      obtain ⟨pre, c, hdat, hc⟩ := hl l (List.mem_cons_self _ _)
      apply string_eq_of_data
      simp only [List.map_cons, List.map_nil, concatAll, interNl,
        String.append_empty, rstripS, String.data_append, hdat]
      rw [show p.data ++ (pre ++ [c] ++ ['\n']) =
        (p.data ++ pre) ++ [c] ++ ['\n'] by simp]
      rw [rstripL_no_ws_tail _ _ hc]
      simp
    | cons l2 rest2 =>
      have hne2 : l2 :: rest2 ≠ [] := by simp
      have hl2 : ∀ line ∈ l2 :: rest2, ∃ pre c, line.data = pre ++ [c] ∧
          isPySpace c = false :=
        fun line hline => hl line (List.mem_cons_of_mem _ hline)
      have step := ih hne2 (p := p ++ (l ++ "\n")) hl2
      rw [interNl_cons _ _ hne2]
      apply string_eq_of_data
      have hdl := congrArg String.data step
      simp only [String.data_append] at hdl ⊢
      simp only [List.map_cons, concatAll, String.data_append, rstripS] at hdl ⊢
      simp only [← List.append_assoc] at hdl ⊢
      exact hdl

theorem combinedBulletLine_false (f : File) :
    combinedBulletLine false f =
      ("● " ++ f.content_filename ++ statusAnnot f) ++ "\n" := by
  unfold combinedBulletLine statusAnnot
  by_cases h : get_status_str f = "" <;>
    (apply string_eq_of_data; simp [h, String.data_append])

/- ### Supporting lemmas: the contract-violation branch -/

theorem exbind_err {α β : Type} (e : Err) (f : α → Except Err β) :
    ((Except.error e : Except Err α) >>= f) = Except.error e := rfl

theorem exbind_ok {α β : Type} (a : α) (f : α → Except Err β) :
    ((Except.ok a : Except Err α) >>= f) = f a := rfl

theorem expure {α : Type} (a : α) :
    (pure a : Except Err α) = Except.ok a := rfl

theorem make_calendar_no_cv (f : File) (cn : String) :
    make_calendar_message f cn ≠ .error .contractViolation := by
  unfold make_calendar_message
  split
  · split <;> simp
  · simp

theorem mapCalendar_no_cv (files : List File) (cn : String) :
    mapCalendar files cn ≠ .error .contractViolation := by
  induction files with
  | nil => simp [mapCalendar]
  | cons f fs ih =>
    simp only [mapCalendar]
    cases hf : make_calendar_message f cn with
    | error e =>
      rw [exbind_err]
      have he : e ≠ Err.contractViolation := by
        intro hcv
        subst hcv
        exact make_calendar_no_cv f cn hf
      intro hcontra
      injection hcontra with h2
      exact he h2
    | ok m =>
      rw [exbind_ok]
      cases hr : mapCalendar fs cn with
      | error e =>
        rw [exbind_err]
        rw [hr] at ih
        exact ih
      | ok ms => simp [exbind_ok, expure]

theorem renderBucket_no_cv (mod : String) (files : List File) (cn : String)
    (hmod : mod ∈ full_category_order) :
    renderBucket mod files cn ≠ .error .contractViolation := by
  simp only [full_category_order, List.mem_cons, List.not_mem_nil,
    or_false] at hmod
  rcases hmod with h | h | h | h | h | h | h <;> subst h <;>
    simp [renderBucket, mapCalendar_no_cv]

theorem processBuckets_no_cv (entries : AggMap) (cn : String)
    (hk : ∀ e ∈ entries, e.1 ∈ full_category_order) :
    processBuckets entries cn ≠ .error .contractViolation := by
  induction entries with
  | nil => simp [processBuckets]
  | cons ent rest ih =>
    obtain ⟨mod, files⟩ := ent
    have hmod : mod ∈ full_category_order := hk _ (List.mem_cons_self _ _)
    have hrest : ∀ e ∈ rest, e.1 ∈ full_category_order :=
      fun e he => hk e (List.mem_cons_of_mem _ he)
    simp only [processBuckets]
    split
    · exact ih hrest
    · cases hr : renderBucket mod files cn with
      | error e =>
        rw [exbind_err]
        have := renderBucket_no_cv mod files cn hmod
        rw [hr] at this
        exact this
      | ok ms =>
        rw [exbind_ok]
        cases hp : processBuckets rest cn with
        | error e =>
          rw [exbind_err]
          have := ih hrest
          rw [hp] at this
          exact this
        | ok ms2 => simp [exbind_ok, expure]

theorem processCourse_no_cv (course : Course) :
    processCourse course ≠ .error .contractViolation := by
  unfold processCourse
  rw [agg_result]
  apply processBuckets_no_cv
  intro e he
  simp only [List.mem_map] at he
  obtain ⟨c, hc, rfl⟩ := he
  exact hc

/- ### Supporting lemmas: counting referenced events -/

theorem count_dropWhile_bullet (l : List Char) :
    (l.dropWhile isPySpace).count '●' = l.count '●' := by
  conv_rhs => rw [← List.takeWhile_append_dropWhile isPySpace l]
  rw [List.count_append]
  have h0 : (l.takeWhile isPySpace).count '●' = 0 := by
    rw [List.count_eq_zero]
    intro hmem
    have := List.mem_takeWhile_imp hmem
    simp [isPySpace] at this
  omega

theorem count_rstripL (l : List Char) :
    (rstripL l).count '●' = l.count '●' := by
  unfold rstripL
  rw [List.count_reverse, count_dropWhile_bullet, List.count_reverse]

theorem count_get_content_type (f : File)
    (hct : f.content_type.data.count '●' = 0) :
    (get_content_type f).data.count '●' = 0 := by
  unfold get_content_type
  split_ifs <;> first | decide | exact hct

theorem count_get_status_str (f : File) :
    (get_status_str f).data.count '●' = 0 := by
  unfold get_status_str get_change_type
  split_ifs <;> decide

theorem count_bulletLine (act : Bool) (f : File)
    (hfn : f.content_filename.data.count '●' = 0)
    (hct : f.content_type.data.count '●' = 0) :
    (combinedBulletLine act f).data.count '●' = 1 := by
  have htype := count_get_content_type f hct
  have hstat := count_get_status_str f
  cases act <;> by_cases h : get_status_str f = "" <;>
    simp [combinedBulletLine, String.data_append, List.count_append,
      h, hfn, htype, hstat]

theorem count_concatAll (l : List String) :
    (concatAll l).data.count '●' =
      (l.map (fun s => s.data.count '●')).sum := by
  induction l with
  | nil => decide
  | cons s rest ih =>
    simp [concatAll, String.data_append, List.count_append, ih]

theorem sum_map_ones {α : Type} (l : List α) (g : α → Nat)
    (h : ∀ x ∈ l, g x = 1) : (l.map g).sum = l.length := by
  induction l with
  | nil => rfl
  | cons x rest ih =>
    simp only [List.map_cons, List.sum_cons, List.length_cons,
      h x (List.mem_cons_self _ _)]
    rw [ih (fun y hy => h y (List.mem_cons_of_mem _ hy))]
    omega

theorem count_course_line (cn : String) (hcn : cn.data.count '●' = 0) :
    (get_course_name_str cn).data.count '●' = 0 := by
  simp [get_course_name_str, String.data_append, List.count_append, hcn]

theorem refCount_combined (files : List File) (cn kw : String)
    (em : Option String) (act : Bool) (hne : files ≠ [])
    (hcn : cn.data.count '●' = 0)
    (hfs : ∀ f ∈ files, f.content_filename.data.count '●' = 0 ∧
      f.content_type.data.count '●' = 0) :
    refCount (make_generic_combined_message files cn kw em act) =
      files.length := by
  have hbody : bulletCount
      (make_generic_combined_message files cn kw em act).text =
      files.length := by
    show (rstripS (get_course_name_str cn ++ "\n" ++
      concatAll (files.map (combinedBulletLine act)))).data.count '●' =
      files.length
    rw [show ∀ s : String, (rstripS s).data = rstripL s.data from fun s => rfl]
    rw [count_rstripL]
    simp only [String.data_append, List.count_append]
    rw [count_course_line cn hcn, count_concatAll, List.map_map]
    simp only [Function.comp_def]
    rw [sum_map_ones files _ (fun f hf =>
      count_bulletLine act f (hfs f hf).1 (hfs f hf).2)]
    have hn : List.count '●' ['\n'] = 0 := by decide
    omega
  have hlen : 1 ≤ files.length := by
    cases files with
    | nil => cases hne rfl
    | cons a l => simp
  unfold refCount
  rw [hbody]
  exact Nat.max_eq_left hlen

theorem refCount_course_line_text (m : NtfyMessage) (cn : String)
    (hm : m.text = get_course_name_str cn) (hcn : cn.data.count '●' = 0) :
    refCount m = 1 := by
  unfold refCount bulletCount
  rw [hm, count_course_line cn hcn]
  decide

theorem calendar_text_ok (f : File) (cn : String) (m : NtfyMessage)
    (h : make_calendar_message f cn = .ok m) :
    m.text = get_course_name_str cn := by
  unfold make_calendar_message at h
  split at h
  · split at h
    · cases h; rfl
    · cases h
  · cases h

theorem mapCalendar_sum (files : List File) (cn : String)
    (ms : List NtfyMessage) (hcn : cn.data.count '●' = 0)
    (hok : mapCalendar files cn = .ok ms) :
    (ms.map refCount).sum = files.length := by
  induction files generalizing ms with
  | nil =>
    cases hok
    rfl
  | cons f rest ih =>
    simp only [mapCalendar] at hok
    cases hf : make_calendar_message f cn with
    | error e => rw [hf, exbind_err] at hok; cases hok
    | ok m =>
      rw [hf, exbind_ok] at hok
      cases hr : mapCalendar rest cn with
      | error e => rw [hr, exbind_err] at hok; cases hok
      | ok ms2 =>
        rw [hr, exbind_ok, expure] at hok
        cases hok
        simp only [List.map_cons, List.sum_cons, List.length_cons]
        rw [refCount_course_line_text m cn (calendar_text_ok f cn m hf) hcn,
          ih ms2 hr]
        omega

theorem renderBucket_sum (mod : String) (files : List File) (cn : String)
    (ms : List NtfyMessage) (hmod : mod ∈ full_category_order)
    (hne : files ≠ []) (hcn : cn.data.count '●' = 0)
    (hfs : ∀ f ∈ files, f.content_filename.data.count '●' = 0 ∧
      f.content_type.data.count '●' = 0)
    (hok : renderBucket mod files cn = .ok ms) :
    (ms.map refCount).sum = files.length := by
  simp only [full_category_order, List.mem_cons, List.not_mem_nil,
    or_false] at hmod
  rcases hmod with h | h | h | h | h | h | h <;> subst h <;>
    simp only [renderBucket, reduceIte] at hok
  · cases hok
    simp only [List.map_cons, List.map_nil, List.sum_cons, List.sum_nil,
      Nat.add_zero]
    exact refCount_combined files cn "assignment file" (some "📝") true
      hne hcn hfs
  · exact mapCalendar_sum files cn ms hcn hok
  · cases hok
    simp only [List.map_cons, List.map_nil, List.sum_cons, List.sum_nil,
      Nat.add_zero]
    exact refCount_combined files cn "file" (some "📚") false hne hcn hfs
  · cases hok
    rw [List.map_map]
    exact sum_map_ones files _ (fun f hf =>
      refCount_course_line_text (make_forum_message f cn) cn rfl hcn)
  · cases hok
    simp only [List.map_cons, List.map_nil, List.sum_cons, List.sum_nil,
      Nat.add_zero]
    exact refCount_combined files cn "file" (some "📚") false hne hcn hfs
  · cases hok
    rw [List.map_map]
    exact sum_map_ones files _ (fun f hf =>
      refCount_course_line_text (make_quiz_message f cn) cn rfl hcn)
  · cases hok
    simp only [List.map_cons, List.map_nil, List.sum_cons, List.sum_nil,
      Nat.add_zero]
    exact refCount_combined files cn "misc" (some "🗂️") false hne hcn hfs

theorem processBuckets_sum (entries : AggMap) (cn : String)
    (ms : List NtfyMessage) (hcn : cn.data.count '●' = 0)
    (hk : ∀ e ∈ entries, e.1 ∈ full_category_order ∧
      ∀ f ∈ e.2, f.content_filename.data.count '●' = 0 ∧
        f.content_type.data.count '●' = 0)
    (hok : processBuckets entries cn = .ok ms) :
    (ms.map refCount).sum = (entries.map (fun e => e.2.length)).sum := by
  induction entries generalizing ms with
  | nil =>
    cases hok
    rfl
  | cons ent rest ih =>
    obtain ⟨mod, files⟩ := ent
    have hent := hk _ (List.mem_cons_self _ _)
    have hrest : ∀ e ∈ rest, e.1 ∈ full_category_order ∧
        ∀ f ∈ e.2, f.content_filename.data.count '●' = 0 ∧
          f.content_type.data.count '●' = 0 :=
      fun e he => hk e (List.mem_cons_of_mem _ he)
    simp only [processBuckets] at hok
    by_cases hemp : files.isEmpty
    · rw [if_pos hemp] at hok
      have hlen : files.length = 0 := by
        cases files with
        | nil => rfl
        | cons a l => simp [List.isEmpty] at hemp
      simp only [List.map_cons, List.sum_cons, hlen]
      rw [ih ms hrest hok]
      omega
    · rw [if_neg hemp] at hok
      have hne : files ≠ [] := by
        intro h
        subst h
        simp [List.isEmpty] at hemp
      cases hr : renderBucket mod files cn with
      | error e => rw [hr, exbind_err] at hok; cases hok
      | ok ms1 =>
        rw [hr, exbind_ok] at hok
        cases hp : processBuckets rest cn with
        | error e => rw [hp, exbind_err] at hok; cases hok
        | ok ms2 =>
          rw [hp, exbind_ok, expure] at hok
          cases hok
          simp only [List.map_append, List.sum_append, List.map_cons,
            List.sum_cons]
          rw [renderBucket_sum mod files cn ms1 hent.1 hne hcn hent.2 hr,
            ih ms2 hrest hp]

theorem specClassify_mem (modname : String) :
    specClassify modname ∈ full_category_order := by
  unfold specClassify
  split
  · next h =>
    simp only [full_category_order, default_mod_categories,
      List.mem_cons, List.not_mem_nil, or_false] at h ⊢
    tauto
  · simp [full_category_order]

theorem sum_filter_classify (files : List File) :
    (full_category_order.map (fun c => (files.filter
      (fun f => specClassify f.module_modname == c)).length)).sum =
      files.length := by
  induction files with
  | nil => rfl
  | cons f fs ih =>
    have hmem := specClassify_mem f.module_modname
    simp only [full_category_order, List.mem_cons, List.not_mem_nil,
      or_false] at hmem
    simp only [full_category_order, List.map_cons, List.map_nil,
      List.sum_cons, List.sum_nil, List.filter_cons] at ih ⊢
    rcases hmem with h | h | h | h | h | h | h <;> simp [h] <;> omega

theorem processCourse_sum (course : Course) (ms : List NtfyMessage)
    (hcn : (pyOrName course.overwrite_name_with
      course.fullname).data.count '●' = 0)
    (hfs : ∀ f ∈ course.files, f.content_filename.data.count '●' = 0 ∧
      f.content_type.data.count '●' = 0)
    (hok : processCourse course = .ok ms) :
    (ms.map refCount).sum = course.files.length := by
  unfold processCourse at hok
  rw [agg_result] at hok
  have hk : ∀ e ∈ full_category_order.map (fun c => (c, course.files.filter
      (fun f => specClassify f.module_modname == c))),
      e.1 ∈ full_category_order ∧
      ∀ f ∈ e.2, f.content_filename.data.count '●' = 0 ∧
        f.content_type.data.count '●' = 0 := by
    intro e he
    simp only [List.mem_map] at he
    obtain ⟨c, hc, rfl⟩ := he
    exact ⟨hc, fun f hf => hfs f (List.mem_filter.mp hf).1⟩
  rw [processBuckets_sum _ _ ms hcn hk hok, List.map_map]
  simp only [Function.comp_def]
  exact sum_filter_classify course.files

/- ### Claim theorems -/

/-- Claim C1: on the one-course batch `Algebra I` with the two new
`resource` files and the one modified `assign` file, the builder
returns exactly two messages, the assign combined message titled
`📝 1 assignment file updates` with bullet line
`● HW1.pdf (Assigment File) (modified)` and the resource combined
message titled `📚 2 file updates` whose body holds one bullet line per
file. -/
theorem claim_C1 :
    create_full_moodle_diff_messages [algebraCourse] = Except.ok
      [{ title := "📝 1 assignment file updates"
         text := "📘 Algebra I\n● HW1.pdf (Assigment File) (modified)"
         source_url := none },
       { title := "📚 2 file updates"
         text := "📘 Algebra I\n● Syllabus.pdf\n● Notes.pdf"
         source_url := none }] ∧
    ("📘 Algebra I\n● Syllabus.pdf\n● Notes.pdf").data.count '●' = 2 := by
  constructor
  · rfl
  · decide

/-- Claim C3: for every zero-padded in-range date token `YYYY.MM.DD`
and time token `HH_MM`, `iso_to_time_dmy` succeeds and its output
matches the 12-hour display pattern
`^\d\x7b2\x7d:\d\x7b2\x7d (AM|PM) \d\x7b2\x7d\.\d\x7b2\x7d\.\d\x7b2\x7d$`;
in particular `("2024.09.23", "14_35")` maps to `"02:35 PM 23.09.24"`. -/
theorem claim_C3 :
    (∀ y m d h mi : Nat, 1 ≤ y → y ≤ 9999 → 1 ≤ m → m ≤ 12 → 1 ≤ d →
      d ≤ daysInMonth y m → h ≤ 23 → mi ≤ 59 →
      iso_to_time_dmy (dateToken y m d) (timeToken h mi) =
        some (strftime_ImP_dmy y m d h mi) ∧
      matchesOutPattern (strftime_ImP_dmy y m d h mi) = true) ∧
    iso_to_time_dmy "2024.09.23" "14_35" = some "02:35 PM 23.09.24" := by
  constructor
  · intro y m d h mi h1 h2 h3 h4 h5 h6 h7 h8
    constructor
    · simp only [iso_to_time_dmy]
      rw [strptime_token y m d h mi h1 h2 h3 h4 h5 h6 h7 h8]
      rfl
    · exact matchesOutPattern_strftime y m d h mi h4
        (le_trans h6 (daysInMonth_le y m)) h7 h8
  · decide

/-- Witness for C3 at the concrete date `2024.09.23` and time `14_35`. -/
theorem claim_C3_witness :
    iso_to_time_dmy (dateToken 2024 9 23) (timeToken 14 35) =
      some (strftime_ImP_dmy 2024 9 23 14 35) ∧
    matchesOutPattern (strftime_ImP_dmy 2024 9 23 14 35) = true :=
  claim_C3.1 2024 9 23 14 35 (by decide) (by decide) (by decide)
    (by decide) (by decide) (by decide) (by decide) (by decide)

/-- Claim C4: the calendar renderer fails with a parse error whenever
splitting `content_filename` on its first two spaces yields fewer than
three tokens, and on well-formed input only the first two spaces are
split so the event name may contain spaces: `"onlyonetoken"` errors and
`"2024.09.23 14_35 Midterm Exam"` yields the title
`"⏰ Midterm Exam @ 02:35 PM 23.09.24"`. -/
theorem claim_C4 :
    (∀ (f : File) (cn : String),
      (pySplitSpace2 f.content_filename).length < 3 →
      make_calendar_message f cn = .error .parseError) ∧
    make_calendar_message
        ⟨"onlyonetoken", "", none, "", "calendar", false, false, false⟩ "C" =
      .error .parseError ∧
    make_calendar_message
        ⟨"2024.09.23 14_35 Midterm Exam", "", none, "", "calendar",
          false, false, false⟩ "C" =
      .ok { title := "⏰ Midterm Exam @ 02:35 PM 23.09.24", text := "📘 C",
            source_url := none } := by
  refine ⟨?_, rfl, rfl⟩
  intro f cn h
  unfold make_calendar_message
  split
  · rename_i iso_date iso_time event_name heq
    rw [heq] at h
    simp at h
  · rfl

/-- Witness for C4 at a concrete one-token filename. -/
theorem claim_C4_witness :
    make_calendar_message
        ⟨"single", "", none, "", "calendar", false, false, false⟩ "D" =
      .error .parseError :=
  claim_C4.1 ⟨"single", "", none, "", "calendar", false, false, false⟩ "D"
    (by decide)

/-- Claim C5: the derived change status follows the fixed priority
order `modified > deleted > moved > new`, and the status annotation
string is empty exactly when the derived status is `new`; in
particular an event with all three flags false yields no annotation. -/
theorem claim_C5 (file : File) :
    (file.modified = true → get_change_type file = "modified") ∧
    (file.modified = false → file.deleted = true →
      get_change_type file = "deleted") ∧
    (file.modified = false → file.deleted = false → file.moved = true →
      get_change_type file = "moved") ∧
    (file.modified = false → file.deleted = false → file.moved = false →
      get_change_type file = "new") ∧
    (get_status_str file = "" ↔ get_change_type file = "new") := by
  rcases file with ⟨fn, fp, url, ct, mm, mo, de, mv⟩
  cases mo <;> cases de <;> cases mv <;>
    simp [get_change_type, get_status_str]

/-- Witness for C5 at concrete inputs. -/
theorem claim_C5_witness :
    get_change_type hw1File = "modified" ∧ get_status_str syllabusFile = "" :=
  ⟨(claim_C5 hw1File).1 rfl,
   (claim_C5 syllabusFile).2.2.2.2.mpr
     ((claim_C5 syllabusFile).2.2.2.1 rfl rfl rfl)⟩

/-- Claim C6: the builder's output is ordered course-by-course in input
order, with each course's non-empty buckets rendered in the fixed
category order `assign, calendar, folder, forum, resource, quiz, misc`
(buckets keep event insertion order, as the input-order filter): the
code equals the spec-side ordered builder on every input. -/
theorem claim_C6 (changes : List Course) :
    create_full_moodle_diff_messages changes = spec_ordered_messages changes := by
  induction changes with
  | nil => rfl
  | cons course rest ih =>
    simp only [create_full_moodle_diff_messages, spec_ordered_messages]
    rw [ih]
    unfold processCourse
    rw [agg_result, processBuckets_filters]

/-- Claim C7: the total number of file events referenced across the
rendered messages — one per bullet line of a combined message, one per
bullet-free per-event message — equals the number of input file events:
no event is dropped and none is rendered twice (stated for inputs whose
names contain no literal bullet character, so that bullet lines can be
counted back from the bodies). -/
theorem claim_C7 (changes : List Course) (msgs : List NtfyMessage)
    (hcs : ∀ course ∈ changes,
      (pyOrName course.overwrite_name_with
        course.fullname).data.count '●' = 0 ∧
      ∀ f ∈ course.files, f.content_filename.data.count '●' = 0 ∧
        f.content_type.data.count '●' = 0)
    (hok : create_full_moodle_diff_messages changes = .ok msgs) :
    (msgs.map refCount).sum = (changes.map (fun c => c.files.length)).sum := by
  induction changes generalizing msgs with
  | nil =>
    cases hok
    rfl
  | cons course rest ih =>
    simp only [create_full_moodle_diff_messages] at hok
    cases hc : processCourse course with
    | error e => rw [hc, exbind_err] at hok; cases hok
    | ok ms1 =>
      rw [hc, exbind_ok] at hok
      cases hr : create_full_moodle_diff_messages rest with
      | error e => rw [hr, exbind_err] at hok; cases hok
      | ok ms2 =>
        rw [hr, exbind_ok, expure] at hok
        cases hok
        have hcourse := hcs course (List.mem_cons_self _ _)
        simp only [List.map_append, List.sum_append, List.map_cons,
          List.sum_cons]
        rw [processCourse_sum course ms1 hcourse.1 hcourse.2 hc,
          ih ms2 (fun c hcm => hcs c (List.mem_cons_of_mem _ hcm)) hr]

/-- Witness for C7 on the `Algebra I` batch: three input events, three
referenced events across the two rendered messages. -/
theorem claim_C7_witness :
    (([{ title := "📝 1 assignment file updates"
         text := "📘 Algebra I\n● HW1.pdf (Assigment File) (modified)"
         source_url := none },
       { title := "📚 2 file updates"
         text := "📘 Algebra I\n● Syllabus.pdf\n● Notes.pdf"
         source_url := none }] : List NtfyMessage).map refCount).sum =
      (([algebraCourse]).map (fun c => c.files.length)).sum :=
  claim_C7 [algebraCourse] _ (by decide) rfl

/-- Claim C8: a non-empty bucket whose key matches no rendering rule
makes the dispatch raise (it is never silently dropped), and under the
default recognized-category set this branch is unreachable: the builder
never returns the contract-violation error, on any input. -/
theorem claim_C8 :
    (∀ (mod : String) (files : List File) (cn : String),
      mod ∉ full_category_order →
      renderBucket mod files cn = .error .contractViolation) ∧
    (∀ changes : List Course,
      create_full_moodle_diff_messages changes ≠
        .error .contractViolation) := by
  constructor
  · intro mod files cn h
    simp only [full_category_order, List.mem_cons, List.not_mem_nil,
      or_false, not_or] at h
    obtain ⟨n1, n2, n3, n4, n5, n6, n7⟩ := h
    simp [renderBucket, n1, n2, n3, n4, n5, n6, n7]
  · intro changes
    induction changes with
    | nil => simp [create_full_moodle_diff_messages]
    | cons course rest ih =>
      simp only [create_full_moodle_diff_messages]
      cases hc : processCourse course with
      | error e =>
        rw [exbind_err]
        have := processCourse_no_cv course
        rw [hc] at this
        exact this
      | ok ms =>
        rw [exbind_ok]
        cases hr : create_full_moodle_diff_messages rest with
        | error e =>
          rw [exbind_err]
          rw [hr] at ih
          exact ih
        | ok ms2 => simp [exbind_ok, expure]

/-- Witness for C8 at the unrecognized bucket key `wiki`. -/
theorem claim_C8_witness :
    renderBucket "wiki" [] "" = .error .contractViolation :=
  claim_C8.1 "wiki" [] "" (by decide)

/-- Claim C9: every combined message carries `source_url = none`, while
the per-event messages (generic single, calendar, forum, quiz) carry
the event's `content_fileurl`. -/
theorem claim_C9 :
    (∀ (files : List File) (cn kw : String) (em : Option String) (act : Bool),
      (make_generic_combined_message files cn kw em act).source_url = none) ∧
    (∀ (f : File) (cn : String) (em : Option String),
      (make_generic_message f cn em).source_url = f.content_fileurl) ∧
    (∀ (f : File) (cn : String) (m : NtfyMessage),
      make_calendar_message f cn = .ok m → m.source_url = f.content_fileurl) ∧
    (∀ (f : File) (cn : String),
      (make_forum_message f cn).source_url = f.content_fileurl) ∧
    (∀ (f : File) (cn : String),
      (make_quiz_message f cn).source_url = f.content_fileurl) := by
  refine ⟨fun _ _ _ _ _ => rfl, fun _ _ _ => rfl, ?_, fun _ _ => rfl,
    fun _ _ => rfl⟩
  intro f cn m h
  unfold make_calendar_message at h
  split at h
  · split at h
    · cases h; rfl
    · cases h
  · cases h

/-- Witness for C9 at a concrete calendar event. -/
theorem claim_C9_witness :
    ({ title := "⏰ Midterm Exam @ 02:35 PM 23.09.24", text := "📘 C",
       source_url := some "http://x" } : NtfyMessage).source_url =
      (⟨"2024.09.23 14_35 Midterm Exam", "", some "http://x", "",
        "calendar", false, false, false⟩ : File).content_fileurl :=
  claim_C9.2.2.1
    ⟨"2024.09.23 14_35 Midterm Exam", "", some "http://x", "",
      "calendar", false, false, false⟩ "C" _ rfl

/-- Claim C10: the course display name used by the builder falls back
to `fullname` both when `overwrite_name_with` is absent and when it is
the empty string, and uses any non-empty override; observable on the
builder output. -/
theorem claim_C10 :
    (∀ f : String, pyOrName none f = f) ∧
    (∀ f : String, pyOrName (some "") f = f) ∧
    (∀ (o : Option String) (f s : String), o = some s → s ≠ "" →
      pyOrName o f = s) ∧
    create_full_moodle_diff_messages
        [⟨"Full Name", some "", [⟨"x", "", none, "", "book", false, false, false⟩]⟩] =
      Except.ok [{ title := "🗂️ 1 misc updates", text := "📘 Full Name\n● x",
                   source_url := none }] := by
  refine ⟨fun _ => rfl, fun _ => rfl, ?_, rfl⟩
  intro o f s ho hs
  subst ho
  simp [pyOrName, hs]

/-- Witness for C10 at a concrete non-empty override. -/
theorem claim_C10_witness : pyOrName (some "Short") "Full" = "Short" :=
  claim_C10.2.2.1 (some "Short") "Full" "Short" rfl (by decide)

/-- Claim C2 as amended: for every course and non-empty resource/folder
bucket whose filenames end in a non-whitespace character, the combined
body is the course-name line followed by one bullet line per file
`● {filename}`, with ` ({status})` appended exactly when the derived
status is not `new` (so the bullet is bare `● {filename}` only for
all-flags-false events). -/
theorem claim_C2_amended (cn : String) (files : List File)
    (hne : files ≠ [])
    (hf : ∀ f ∈ files, ∃ pre c, f.content_filename.data = pre ++ [c] ∧
      isPySpace c = false) :
    (make_resource_combined_message files cn).text =
      interNl (get_course_name_str cn ::
        files.map (fun f => "● " ++ f.content_filename ++ statusAnnot f)) := by
  have hlines_ne :
      files.map (fun f => "● " ++ f.content_filename ++ statusAnnot f) ≠ [] := by
    intro h
    exact hne (List.map_eq_nil_iff.mp h)
  have hl : ∀ line ∈ files.map
      (fun f => "● " ++ f.content_filename ++ statusAnnot f),
      ∃ pre c, line.data = pre ++ [c] ∧ isPySpace c = false := by
    intro line hline
    simp only [List.mem_map] at hline
    obtain ⟨f, hfm, rfl⟩ := hline
    obtain ⟨pre, c, hdat, hc⟩ := hf f hfm
    by_cases h : get_status_str f = ""
    · exact ⟨("● ").data ++ pre, c,
        by simp [String.data_append, hdat, statusAnnot, h], hc⟩
    · exact ⟨("● " ++ f.content_filename ++ " (" ++ get_status_str f).data,
        ')', by simp [String.data_append, statusAnnot, h], by decide⟩
  rw [interNl_cons _ _ hlines_ne]
  show rstripS (get_course_name_str cn ++ "\n" ++
    concatAll (files.map (combinedBulletLine false))) = _
  rw [show files.map (combinedBulletLine false) =
    (files.map (fun f => "● " ++ f.content_filename ++ statusAnnot f)).map
      (fun l => l ++ "\n") by
    simp [List.map_map, Function.comp, combinedBulletLine_false]]
  exact rstrip_concatAll _ _ hlines_ne hl

/-- Witness for the amended C2 at a concrete modified resource file. -/
theorem claim_C2_amended_witness :
    (make_resource_combined_message
        [⟨"A.pdf", "", none, "", "resource", true, false, false⟩] "C").text =
      interNl (get_course_name_str "C" ::
        ([⟨"A.pdf", "", none, "", "resource", true, false, false⟩] :
          List File).map
          (fun f => "● " ++ f.content_filename ++ statusAnnot f)) :=
  claim_C2_amended "C" _ (by simp) (by
    intro f hfm
    simp only [List.mem_singleton] at hfm
    subst hfm
    exact ⟨['A', '.', 'p', 'd'], 'f', rfl, rfl⟩)

/-- Counterexample to claim C2 as stated: a single modified `resource`
file renders the bullet `● A.pdf (modified)`, not the bare
`● A.pdf` — the body is not the filename and nothing else. -/
theorem claim_C2_counterexample :
    (make_resource_combined_message
        [⟨"A.pdf", "", none, "", "resource", true, false, false⟩] "C").text =
      "📘 C\n● A.pdf (modified)" ∧
    ("📘 C\n● A.pdf (modified)" : String) ≠ "📘 C" ++ "\n" ++ "● " ++ "A.pdf" := by
  constructor
  · rfl
  · decide

end NtfyFormatter
